import Mathlib

/-!
Verification of the aura transaction-trace inspection pipeline.

The definitions below are a shallow embedding of the TypeScript sources:
the trace normalizer (`src/providers/rpc.ts`), the ABI / signature decoder
(`src/services/abi.ts`), the call-tree builder (`src/parsers/trace-parser.ts`),
the DeFi protocol detector (`src/services/defi/defi-detector.ts`) and the
token metadata resolver (`src/services/token.ts`).  JavaScript strings are
Lean `String`s manipulated through their underlying character lists (the
sources only ever index strings by UTF-16 position on ASCII hex data, where
the two notions agree).  Asynchronous external reads (signature registry,
ERC-20 contract reads) are modelled as explicit oracle parameters, and the
mutable per-service caches as explicitly threaded state.
-/

namespace Aura

/-! ### String helpers

Counterparts of the JavaScript string operations used by the sources,
defined over the character list so that they compute by `rfl`. -/

def strLower (s : String) : String := ⟨s.data.map Char.toLower⟩

def listStarts : List Char → List Char → Bool
  | _, [] => true
  | [], _ :: _ => false
  | c :: cs, p :: ps => c == p && listStarts cs ps

/-- Models `s.startsWith(pat)`. -/
def strStarts (s pat : String) : Bool := listStarts s.data pat.data

/-- Models `s.slice(0, n)`. -/
def strTake (s : String) (n : Nat) : String := ⟨s.data.take n⟩

/-- Models `s.slice(n)`. -/
def strDrop (s : String) (n : Nat) : String := ⟨s.data.drop n⟩

/-- Models `s.length` (UTF-16 length; identical on the ASCII data used here). -/
def strLen (s : String) : Nat := s.data.length

/-- Models `s.includes(pat)`. -/
def containsSub (s pat : String) : Bool :=
  (List.range (strLen s + 1)).any fun i => strStarts (strDrop s i) pat

/-! ### A model of loosely-typed JavaScript values

`RpcProvider.normalizeTrace` receives an `any` payload and duck-types it,
so it is embedded over a JSON-like value type.  `Js.get` models property
access `v.key` (absent property / non-object access yields `undefined`,
modelled as `none`); `Js.truthy` models JavaScript truthiness. -/

inductive Js where
  | null : Js
  | bool (b : Bool) : Js
  | num (n : Int) : Js
  | str (s : String) : Js
  | arr (elems : List Js) : Js
  | obj (fields : List (String × Js)) : Js

def Js.getField : List (String × Js) → String → Option Js
  | [], _ => none
  | (k, v) :: rest, key => if k == key then some v else Js.getField rest key

def Js.get : Js → String → Option Js
  | .obj fields, key => Js.getField fields key
  | _, _ => none

def Js.truthy : Js → Bool
  | .null => false
  | .bool b => b
  | .num n => n != 0
  | .str s => s != ""
  | .arr _ => true
  | .obj _ => true

/-- Truthiness of a possibly-absent property (`undefined` is falsy). -/
def optTruthy (v : Option Js) : Bool :=
  match v with
  | some x => x.truthy
  | none => false

/-- Models the JavaScript expression `v || d` applied to a property access. -/
def jsOr (v : Option Js) (d : Js) : Js :=
  match v with
  | some x => if x.truthy then x else d
  | none => d

/-! ### Trace Normalizer (`RpcProvider.normalizeTrace`, rpc.ts lines 268-306)

The four recognized shapes are tried in source order; the output is the
object literal `{ calls, gasUsed, logs? }` built by the matching branch.
The `logs` key is emitted only when the input has one (in JavaScript the
key is present with value `undefined` otherwise, which is indistinguishable
to every consumer and to a second normalization pass).  A `null` input
would raise a `TypeError` in JavaScript; the model returns the format error
instead, a difference no theorem below depends on. -/

def traceFormatError : String := "Unexpected trace format received from RPC provider"

def normalizeTrace (trace : Js) : Except String Js :=
  if optTruthy (trace.get "type") && optTruthy (trace.get "from") &&
      optTruthy (trace.get "to") then
    .ok (.obj [("calls", .arr [trace]),
               ("gasUsed", jsOr (trace.get "gasUsed") (.str "0"))])
  else if optTruthy (trace.get "result") then
    let r := (trace.get "result").getD .null
    .ok (.obj [("calls", .arr [r]),
               ("gasUsed", jsOr (r.get "gasUsed") (.str "0"))])
  else
    match trace with
    | .arr elems =>
      .ok (.obj [("calls", .arr elems),
                 ("gasUsed", jsOr ((elems.head?).bind (Js.get · "gasUsed")) (.str "0"))])
    | _ =>
      if optTruthy (trace.get "calls") || optTruthy (trace.get "logs") then
        .ok (.obj ([("calls", jsOr (trace.get "calls") (.arr [])),
                    ("gasUsed", jsOr (trace.get "gasUsed") (.str "0"))] ++
          (match trace.get "logs" with
           | some l => [("logs", l)]
           | none => [])))
      else
        .error traceFormatError

theorem jsOr_truthy (v : Option Js) (d : Js) (hd : d.truthy = true) :
    (jsOr v d).truthy = true := by
  unfold jsOr
  cases v with
  | none => exact hd
  | some x =>
    by_cases hx : x.truthy = true
    · simp [hx]
    · simp [hx, hd]

/-- Every successful normalization yields the canonical object shape with a
truthy `calls` value and a truthy `gasUsed` value, optionally followed by a
`logs` field. -/
theorem normalizeTrace_ok_shape (t r : Js) (h : normalizeTrace t = .ok r) :
    ∃ cv gv rest, r = .obj (("calls", cv) :: ("gasUsed", gv) :: rest) ∧
      cv.truthy = true ∧ gv.truthy = true ∧
      (rest = [] ∨ ∃ l, rest = [("logs", l)]) := by
  unfold normalizeTrace at h
  split at h
  · injection h with h2
    exact ⟨_, _, [], h2.symm, rfl, jsOr_truthy _ _ rfl, Or.inl rfl⟩
  · split at h
    · injection h with h2
      exact ⟨_, _, [], h2.symm, rfl, jsOr_truthy _ _ rfl, Or.inl rfl⟩
    · split at h
      · injection h with h2
        exact ⟨_, _, [], h2.symm, rfl, jsOr_truthy _ _ rfl, Or.inl rfl⟩
      · split at h
        · injection h with h2
          refine ⟨_, _, _, h2.symm, jsOr_truthy _ _ rfl, jsOr_truthy _ _ rfl, ?_⟩
          cases hl : Js.get _ "logs" with
          | none => simp
          | some l => exact Or.inr ⟨l, rfl⟩
        · exact absurd h (by simp)

/-- An object of the canonical output shape is a fixed point of the
normalizer: it falls through to the `calls`/`logs` branch which passes it
through unchanged. -/
theorem normalizeTrace_fixed (cv gv : Js) (rest : List (String × Js))
    (hcv : cv.truthy = true) (hgv : gv.truthy = true)
    (hrest : rest = [] ∨ ∃ l, rest = [("logs", l)]) :
    normalizeTrace (.obj (("calls", cv) :: ("gasUsed", gv) :: rest)) =
      .ok (.obj (("calls", cv) :: ("gasUsed", gv) :: rest)) := by
  rcases hrest with h | ⟨l, h⟩ <;> subst h <;>
    simp [normalizeTrace, Js.get, Js.getField, optTruthy, jsOr, hcv, hgv]

/-- Claim C8: feeding a successful normalization result back into the
normalizer succeeds and returns it unchanged — already-normalized input is
a fixed point of `normalizeTrace`. -/
theorem normalizeTrace_idempotent (t r : Js) (h : normalizeTrace t = .ok r) :
    normalizeTrace r = .ok r := by
  obtain ⟨cv, gv, rest, hr, hcv, hgv, hrest⟩ := normalizeTrace_ok_shape t r h
  subst hr
  exact normalizeTrace_fixed cv gv rest hcv hgv hrest

/-- Claim C8 witness: the fixed-point property at a concrete single-call
payload. -/
theorem normalizeTrace_idempotent_witness :
    normalizeTrace
        (.obj [("calls",
                .arr [.obj [("type", .str "CALL"), ("from", .str "0xaa"),
                            ("to", .str "0xbb"), ("gasUsed", .str "0x5208")]]),
               ("gasUsed", .str "0x5208")]) =
      .ok (.obj [("calls",
                  .arr [.obj [("type", .str "CALL"), ("from", .str "0xaa"),
                              ("to", .str "0xbb"), ("gasUsed", .str "0x5208")]]),
                 ("gasUsed", .str "0x5208")]) :=
  normalizeTrace_idempotent
    (.obj [("type", .str "CALL"), ("from", .str "0xaa"), ("to", .str "0xbb"),
           ("gasUsed", .str "0x5208")]) _ rfl

def sampleCallA : Js :=
  .obj [("type", .str "CALL"), ("from", .str "0xaa"), ("to", .str "0xbb"),
        ("gasUsed", .str "0x100")]

def sampleCallB : Js :=
  .obj [("type", .str "CALL"), ("from", .str "0xcc"), ("to", .str "0xdd"),
        ("gasUsed", .str "0x200")]

/-- Claim C3 counterexample: for a wrapped payload whose `result` is an array
of two calls, normalizing the wrapper does not agree with normalizing the
`result` value itself — the wrapper branch casts `result` to a single call
and wraps it in a one-element list instead of recursing. -/
theorem normalizeTrace_result_no_recursion :
    normalizeTrace (.obj [("result", .arr [sampleCallA, sampleCallB])]) ≠
      normalizeTrace (.arr [sampleCallA, sampleCallB]) := by
  simp [normalizeTrace, sampleCallA, sampleCallB, Js.get, Js.getField, optTruthy,
    jsOr, Js.truthy]

/-- Claim C3 amended: an object with a truthy `result` field (that is not
itself call-shaped) normalizes to `result` wrapped as the single top-level
call, with `gasUsed` taken from `result.gasUsed` (defaulting to "0"); this
agrees with normalizing the `result` value directly exactly when that value
is a single call object (truthy `type`, `from` and `to`). -/
theorem normalizeTrace_result_wraps (t r : Js)
    (hcall : (optTruthy (t.get "type") && optTruthy (t.get "from") &&
      optTruthy (t.get "to")) = false)
    (hres : t.get "result" = some r) (htr : r.truthy = true) :
    normalizeTrace t =
      .ok (.obj [("calls", .arr [r]), ("gasUsed", jsOr (r.get "gasUsed") (.str "0"))]) ∧
    ((optTruthy (r.get "type") && optTruthy (r.get "from") &&
        optTruthy (r.get "to")) = true →
      normalizeTrace t = normalizeTrace r) := by
  constructor
  · unfold normalizeTrace
    rw [hcall]
    simp [hres, optTruthy, htr]
  · intro hr
    unfold normalizeTrace
    rw [hcall, hr]
    simp [hres, optTruthy, htr]

/-- Claim C3 witness: unwrap agreement at a concrete wrapped single call. -/
theorem normalizeTrace_result_wraps_witness :
    normalizeTrace (.obj [("result", sampleCallA)]) = normalizeTrace sampleCallA :=
  (normalizeTrace_result_wraps (.obj [("result", sampleCallA)]) sampleCallA
    rfl rfl rfl).2 rfl

/-! ### Hex data and ABI word decoding

Infrastructure shared by the Signature Decoder model: hex strings to byte
lists, 32-byte words, and per-type word decoding.  These model the strict
ethers coders used by `ABIService`: malformed hex, short data or an
out-of-range offset makes ethers throw, which every call site converts to
`null`; the model returns `none` in those situations. -/

def hexDigitVal (c : Char) : Option Nat :=
  let n := c.toNat
  if 48 ≤ n ∧ n ≤ 57 then some (n - 48)
  else if 97 ≤ n ∧ n ≤ 102 then some (n - 87)
  else if 65 ≤ n ∧ n ≤ 70 then some (n - 55)
  else none

def hexPairsToBytes : List Char → Option (List Nat)
  | [] => some []
  | [_] => none
  | c1 :: c2 :: rest => do
    let h1 ← hexDigitVal c1
    let h2 ← hexDigitVal c2
    let bs ← hexPairsToBytes rest
    pure ((16 * h1 + h2) :: bs)

/-- Parses a hex data string (an optional `0x` prefix is tolerated) into a
byte list; odd length or a non-hex character is a failure. -/
def hexBytes (s : String) : Option (List Nat) :=
  hexPairsToBytes (if strStarts s "0x" then s.data.drop 2 else s.data)

/-- Big-endian byte-list value. -/
def bytesToNat : List Nat → Nat
  | [] => 0
  | b :: rest => b * 256 ^ rest.length + bytesToNat rest

/-- Reads the 32-byte word at byte offset `off`; reading past the end of the
data makes ethers throw (modelled as `none`). -/
def wordAt (bytes : List Nat) (off : Nat) : Option Nat :=
  if off + 32 ≤ bytes.length then some (bytesToNat ((bytes.drop off).take 32)) else none

def hexDigitChar (n : Nat) : Char :=
  if n < 10 then Char.ofNat (48 + n) else Char.ofNat (87 + (n % 16 - 10))

/-- Fixed-width lowercase hex rendering (most significant digit first). -/
def natToHexPad (v : Nat) (width : Nat) : List Char :=
  (List.range width).reverse.map fun i => hexDigitChar (v / 16 ^ i % 16)

/-- Hex rendering of a 160-bit address word.  The source displays addresses
with keccak-based checksum casing; keccak is not modelled, so addresses
render in lowercase hex.  No claim below inspects address casing. -/
def addressString (w : Nat) : String :=
  ⟨'0' :: 'x' :: natToHexPad (w % 2 ^ 160) 40⟩

structure ABIParam where
  name : String
  type : String
  indexed : Bool := false

structure ABIFunction where
  name : String
  inputs : List ABIParam

structure ABIEvent where
  name : String
  inputs : List ABIParam

/-- Decoded parameter value as it appears after `ABIService.formatValue`:
addresses/integers/bytes as strings, booleans as booleans, arrays as lists. -/
inductive AbiValue where
  | str (s : String) : AbiValue
  | bool (b : Bool) : AbiValue
  | arr (vs : List AbiValue) : AbiValue

/-- Decoding of one 32-byte word at a static-type position combined with the
rendering of `ABIService.formatValue`: integers as decimal strings (signed
values render as their unsigned word value; no claim decodes a negative
integer), addresses and `bytesN` as lowercase hex strings, `bool` from the
word's zeroness.  Dynamic types (`string`, `bytes`, arrays, tuples) are
conservatively treated as a decode failure; no claim exercises them through
this path. -/
def decodeStaticArg (ty : String) (w : Nat) : Option AbiValue :=
  if ty == "address" then some (.str (addressString w))
  else if strStarts ty "uint" then some (.str (toString w))
  else if strStarts ty "int" then some (.str (toString w))
  else if ty == "bool" then some (.bool (w != 0))
  else if strStarts ty "bytes" && ty != "bytes" then
    some (.str ⟨'0' :: 'x' :: natToHexPad w 64⟩)
  else none

def abiDecodeArgsAux : List ABIParam → List Nat → Nat → Option (List AbiValue)
  | [], _, _ => some []
  | p :: rest, bytes, off => do
    let w ← wordAt bytes off
    let v ← decodeStaticArg p.type w
    let vs ← abiDecodeArgsAux rest bytes (off + 32)
    pure (v :: vs)

/-- Models `new ethers.Interface([f])` plus `iface.parseTransaction({data})`
argument decoding: the calldata after the 4-byte selector is decoded against
the parameter list; a malformed layout yields `none`, matching the
`try`/`catch` in `decodeFunctionCall` that converts an ethers throw into a
`null` result. -/
def abiDecodeFunctionArgs (inputs : List ABIParam) (dataHex : String) :
    Option (List AbiValue) := do
  let bytes ← hexBytes dataHex
  abiDecodeArgsAux inputs bytes 0

theorem abiDecodeArgsAux_length :
    ∀ (inputs : List ABIParam) (bytes : List Nat) (off : Nat) (vs : List AbiValue),
      abiDecodeArgsAux inputs bytes off = some vs → vs.length = inputs.length := by
  intro inputs
  induction inputs with
  | nil => intro bytes off vs h; simp [abiDecodeArgsAux] at h; simp [← h]
  | cons p rest ih =>
    intro bytes off vs h
    simp only [abiDecodeArgsAux, Option.bind_eq_bind, Option.bind_eq_some] at h
    obtain ⟨w, _, v, _, tl, htl, hvs⟩ := h
    have hvs2 : v :: tl = vs := by simpa using hvs
    simp [← hvs2, ih bytes (off + 32) tl htl]

/-! ### Signature parsing and the registry fetch (`ABIService`, abi.ts)

The 4byte.directory lookup is modelled by a `registry` oracle mapping a
selector to the ordered list of candidate `text_signature` strings the
registry returned (a network failure is the empty list). -/

def wordCharB (c : Char) : Bool := c.isAlphanum || c == '_'

/-- Index of the last occurrence of `c`, if any. -/
def lastIdxOf (cs : List Char) (c : Char) : Option Nat :=
  match cs.reverse.findIdx? (· == c) with
  | some k => some (cs.length - 1 - k)
  | none => none

/-- Models the regex match `/(\w+)\((.*)\)/` on a signature string: the
leftmost `(` preceded by at least one word character and followed somewhere
by `)`; the greedy `.*` makes the parameter capture extend to the last `)`
of the remainder.  `acc` holds the characters already scanned, reversed. -/
def sigMatchAux : List Char → List Char → Option (String × String)
  | acc, '(' :: rest =>
    let run := acc.takeWhile wordCharB
    if run.isEmpty then sigMatchAux ('(' :: acc) rest
    else
      match lastIdxOf rest ')' with
      | some j => some (⟨run.reverse⟩, ⟨rest.take j⟩)
      | none => none
  | acc, c :: rest => sigMatchAux (c :: acc) rest
  | _, [] => none

def strTrim (s : String) : String :=
  ⟨((s.data.dropWhile (·.isWhitespace)).reverse.dropWhile (·.isWhitespace)).reverse⟩

/-- Models `String.prototype.split(',')`: every comma splits, empty pieces
are kept, no trimming. -/
def splitComma : List Char → List (List Char)
  | [] => [[]]
  | c :: rest =>
    let r := splitComma rest
    if c == ',' then [] :: r
    else
      match r with
      | h :: t => (c :: h) :: t
      | [] => [[c]]

/-- Models one entry of the parameter-list split in `parseSignatureToABI`:
`"address to"` gives name/type, a bare `"address"` falls back to
`param<index>`.  Function fragments never carry the `indexed` property. -/
def parseParamEntry (param : String) (idx : Nat) : ABIParam :=
  let trimmed := strTrim param
  match lastIdxOf trimmed.data ' ' with
  | some si =>
    if 0 < si then
      { name := strDrop trimmed (si + 1), type := strTake trimmed si }
    else
      { name := "param" ++ toString idx, type := trimmed }
  | none => { name := "param" ++ toString idx, type := trimmed }

/-- Models `ABIService.parseSignatureToABI` for type `function` (the event
variant is unreachable: `fetchEventSignature` always returns null). -/
def parseSignatureToABI (signature : String) : Option ABIFunction :=
  match sigMatchAux [] signature.data with
  | none => none
  | some (name, params) =>
    let inputs :=
      if params == "" then []
      else (splitComma params.data).enum.map fun (idx, cs) => parseParamEntry ⟨cs⟩ idx
    some { name := name, inputs := inputs }

/-- Models `isValidABI` for function fragments: truthy name, no
known-malformed pattern in the name, every input typed.  The
`'indexed' in input` rejection is vacuous here because function fragments
produced by `parseSignatureToABI` never carry the property. -/
def isValidABIFunction (f : ABIFunction) : Bool :=
  !(f.name == "") &&
  !(containsSub f.name "watch_tg_") && !(containsSub f.name "_faebe36") &&
  f.inputs.all fun p => !(p.type == "")

/-- Models the candidate loop of `fetchFunctionSignature`: spam-patterned
candidates are skipped, the first candidate whose parse passes validation
wins, anything else falls through to the next candidate. -/
def pickSignature : List String → Option ABIFunction
  | [] => none
  | sig :: rest =>
    if containsSub sig "watch_tg_" || containsSub sig "_faebe36" then pickSignature rest
    else
      match parseSignatureToABI sig with
      | some f => if isValidABIFunction f then some f else pickSignature rest
      | none => pickSignature rest

def fetchFunctionSignature (registry : String → List String) (selector : String) :
    Option ABIFunction :=
  pickSignature (registry selector)

/-! ### The ABI service state and `decodeFunctionCall` -/

structure ABIState where
  signatureCache : List (String × ABIFunction)
  eventCache : List (String × ABIEvent)

def lookupAssoc {α : Type} : List (String × α) → String → Option α
  | [], _ => none
  | (k, v) :: rest, key => if k == key then some v else lookupAssoc rest key

/-- Models `Map.set`: a later entry for the same key shadows the earlier one
under `lookupAssoc`. -/
def assocSet {α : Type} (key : String) (v : α) (m : List (String × α)) :
    List (String × α) :=
  (key, v) :: m

def transferTopic : String :=
  "0xddf252ad1be2c89b69c2b068fc378daa952ba7f163c4a11628f55a4df523b3ef"

def approvalTopic : String :=
  "0x8c5be1e5ebec7d5bd14f71427d1e84f3dd0314c0f7b2291e5b200ac8c7c3b925"

/-- Models `loadCommonABIs`: the caches seeded in the `ABIService`
constructor. -/
def initialABIState : ABIState :=
  { signatureCache :=
      [("0xa9059cbb",
        { name := "transfer",
          inputs := [{ name := "to", type := "address" },
                     { name := "amount", type := "uint256" }] }),
       ("0x095ea7b3",
        { name := "approve",
          inputs := [{ name := "spender", type := "address" },
                     { name := "amount", type := "uint256" }] })],
    eventCache :=
      [(transferTopic,
        { name := "Transfer",
          inputs := [{ name := "from", type := "address", indexed := true },
                     { name := "to", type := "address", indexed := true },
                     { name := "value", type := "uint256", indexed := false }] }),
       (approvalTopic,
        { name := "Approval",
          inputs := [{ name := "owner", type := "address", indexed := true },
                     { name := "spender", type := "address", indexed := true },
                     { name := "value", type := "uint256", indexed := false }] })] }

structure DecodedParam where
  name : String
  type : String
  value : AbiValue

structure DecodedFunction where
  name : String
  signature : String
  inputs : List DecodedParam

/-- Models the `decoded.signature` string ethers derives from a fragment:
`name(type1,type2,...)`.  ethers also normalizes shorthand type names; the
fragments the claims exercise are already canonical. -/
def signatureStringOf (name : String) (inputs : List ABIParam) : String :=
  name ++ "(" ++ String.intercalate "," (inputs.map (·.type)) ++ ")"

/-- Models `abiFunction.inputs[index]?.name || 'param<index>'`. -/
def paramNameOr (p : Option ABIParam) (idx : Nat) : String :=
  match p with
  | some q => if q.name == "" then "param" ++ toString idx else q.name
  | none => "param" ++ toString idx

/-- Models `abiFunction.inputs[index]?.type || 'unknown'`. -/
def paramTypeOr (p : Option ABIParam) : String :=
  match p with
  | some q => if q.type == "" then "unknown" else q.type
  | none => "unknown"

/-- Models lines 76-86 of `decodeFunctionCall`: resolve the selector from the
signature cache, else fetch from the registry; a successful fetch is cached
(in the source the `set` happens inside `fetchFunctionSignature`, which is
only ever reached on a cache miss). -/
def resolveFunction (registry : String → List String) (st : ABIState)
    (selector : String) : Option ABIFunction × ABIState :=
  match lookupAssoc st.signatureCache selector with
  | some f => (some f, st)
  | none =>
    match fetchFunctionSignature registry selector with
    | some f => (some f, { st with signatureCache := assocSet selector f st.signatureCache })
    | none => (none, st)

/-- Models `ABIService.decodeFunctionCall` (abi.ts lines 72-108).  The `to`
address is accepted and ignored exactly as in the source. -/
def decodeFunctionCall (registry : String → List String) (st : ABIState)
    (toAddr input : String) : Option DecodedFunction × ABIState :=
  if strLen input < 10 then (none, st)
  else
    match resolveFunction registry st (strTake input 10) with
    | (none, st1) => (none, st1)
    | (some f, st1) =>
      match abiDecodeFunctionArgs f.inputs (strDrop input 10) with
      | none => (none, st1)
      | some args =>
        (some { name := f.name,
                signature := signatureStringOf f.name f.inputs,
                inputs := args.enum.map fun (idx, v) =>
                  { name := paramNameOr (f.inputs.get? idx) idx,
                    type := paramTypeOr (f.inputs.get? idx),
                    value := v } }, st1)

/-- Claim C7: decode-or-none law.  `decodeFunctionCall` is a total function
(the embedding of "never throws": inputs shorter than 4 bytes, unknown
selectors and layout mismatches all land in the `none` arm), and whenever it
returns a decoded call, the decoded input list has exactly as many entries
as the resolved schema has parameters. -/
theorem decodeFunctionCall_decode_or_none (registry : String → List String)
    (st : ABIState) (toAddr input : String) :
    (decodeFunctionCall registry st toAddr input).1 = none ∨
    ∃ f d, (resolveFunction registry st (strTake input 10)).1 = some f ∧
      (decodeFunctionCall registry st toAddr input).1 = some d ∧
      d.inputs.length = f.inputs.length := by
  unfold decodeFunctionCall
  split
  · exact Or.inl rfl
  · rcases hres : resolveFunction registry st (strTake input 10) with ⟨fo, st1⟩
    cases fo with
    | none => simp [hres]
    | some f =>
      rcases hargs : abiDecodeFunctionArgs f.inputs (strDrop input 10) with _ | args
      · left
        simp [hres, hargs]
      · right
        have hlen : args.length = f.inputs.length := by
          unfold abiDecodeFunctionArgs at hargs
          rcases hbytes : hexBytes (strDrop input 10) with _ | bytes
          · simp [hbytes] at hargs
          · simp only [hbytes, Option.bind_eq_bind, Option.some_bind] at hargs
            exact abiDecodeArgsAux_length f.inputs bytes 0 args hargs
        refine ⟨f,
          { name := f.name,
            signature := signatureStringOf f.name f.inputs,
            inputs := args.enum.map fun (idx, v) =>
              { name := paramNameOr (f.inputs.get? idx) idx,
                type := paramTypeOr (f.inputs.get? idx),
                value := v } }, ?_, ?_, ?_⟩
        · simp [hres]
        · simp [hres, hargs]
        · simp [hlen]

/-! ### Event decoding (`ABIService.decodeEventLog`, abi.ts lines 113-150)

`fetchEventSignature` always returns null in the source, so event
resolution is cache-only and decoding the log never mutates the caches. -/

structure DecodedEventParam where
  name : String
  type : String
  value : AbiValue
  indexed : Bool

structure DecodedEvent where
  name : String
  signature : String
  inputs : List DecodedEventParam

/-- Decodes an indexed parameter from one 32-byte topic.  ethers represents
an indexed dynamic parameter by an opaque hash object; that case is not
modelled (none of the cached events has one). -/
def decodeWordFromTopic (ty : String) (topic : String) : Option AbiValue := do
  let bytes ← hexBytes topic
  if bytes.length == 32 then decodeStaticArg ty (bytesToNat bytes) else none

def eventArgsAux : List ABIParam → List String → List Nat → Nat → Option (List AbiValue)
  | [], _, _, _ => some []
  | p :: rest, topics, dataBytes, dataOff =>
    if p.indexed then
      match topics with
      | [] => none
      | t :: ts => do
        let v ← decodeWordFromTopic p.type t
        let vs ← eventArgsAux rest ts dataBytes dataOff
        pure (v :: vs)
    else do
      let w ← wordAt dataBytes dataOff
      let v ← decodeStaticArg p.type w
      let vs ← eventArgsAux rest topics dataBytes (dataOff + 32)
      pure (v :: vs)

/-- Models `iface.parseLog({topics, data})` argument extraction: indexed
parameters are read from `topics[1..]` in order, the rest are ABI-decoded
from `data` sequentially.  ethers recomputes the fragment's keccak topic
hash and compares it against `topics[0]`; keccak is not modelled, and every
fragment reachable here is cached under exactly that hash, so the comparison
is modelled as succeeding.  A topic-count mismatch or malformed data yields
`none` (the `try`/`catch` in `decodeEventLog` maps an ethers throw to
`null`). -/
def abiDecodeEventArgs (inputs : List ABIParam) (topics : List String) (data : String) :
    Option (List AbiValue) := do
  let dataBytes ← hexBytes data
  if topics.length == (inputs.filter (·.indexed)).length + 1 then
    eventArgsAux inputs (topics.drop 1) dataBytes 0
  else none

def decodeEventLog (st : ABIState) (topics : List String) (data : String) :
    Option DecodedEvent :=
  match topics with
  | [] => none
  | t0 :: _ =>
    match lookupAssoc st.eventCache t0 with
    | none => none
    | some ev =>
      match abiDecodeEventArgs ev.inputs topics data with
      | none => none
      | some args =>
        some { name := ev.name,
               signature := signatureStringOf ev.name ev.inputs,
               inputs := args.enum.map fun (idx, v) =>
                 { name := paramNameOr (ev.inputs.get? idx) idx,
                   type := paramTypeOr (ev.inputs.get? idx),
                   value := v,
                   indexed := (ev.inputs.get? idx).elim false (·.indexed) } }

/-! ### Call Tree Builder (`TraceParser`, trace-parser.ts)

`TraceCall` is the raw duck-typed call node; every scalar field is optional
(the payload is provider JSON).  An absent `calls` field behaves in
`parseCall` exactly like an empty list (`if (call.calls) for (...)` runs
zero iterations either way), so it is modelled as `[]`. -/

inductive TraceCall where
  | mk (type from_ to_ value gas gasUsed input output error : Option String)
       (calls : List TraceCall)

def TraceCall.type : TraceCall → Option String
  | .mk t _ _ _ _ _ _ _ _ _ => t

def TraceCall.from_ : TraceCall → Option String
  | .mk _ f _ _ _ _ _ _ _ _ => f

def TraceCall.to_ : TraceCall → Option String
  | .mk _ _ t _ _ _ _ _ _ _ => t

def TraceCall.value : TraceCall → Option String
  | .mk _ _ _ v _ _ _ _ _ _ => v

def TraceCall.gas : TraceCall → Option String
  | .mk _ _ _ _ g _ _ _ _ _ => g

def TraceCall.gasUsed : TraceCall → Option String
  | .mk _ _ _ _ _ g _ _ _ _ => g

def TraceCall.input : TraceCall → Option String
  | .mk _ _ _ _ _ _ i _ _ _ => i

def TraceCall.output : TraceCall → Option String
  | .mk _ _ _ _ _ _ _ o _ _ => o

def TraceCall.error : TraceCall → Option String
  | .mk _ _ _ _ _ _ _ _ e _ => e

def TraceCall.calls : TraceCall → List TraceCall
  | .mk _ _ _ _ _ _ _ _ _ cs => cs

structure RawLog where
  address : Option String
  topics : Option (List String)
  data : Option String

structure RawTrace where
  calls : List TraceCall
  gasUsed : String
  logs : Option (List RawLog) := none

structure TransactionInfo where
  hash : String
  blockNumber : Nat
  from_ : String
  to_ : Option String
  value : String
  gasUsed : String
  gasPrice : String
  status : Nat

inductive CallType where
  | call : CallType
  | staticcall : CallType
  | delegatecall : CallType
  | create : CallType
  | create2 : CallType
deriving DecidableEq

structure ParsedEvent where
  address : Option String
  logIndex : Nat
  rawTopics : List String
  rawData : String
  decodedEvent : Option DecodedEvent := none

inductive ParsedCall where
  | mk (type : CallType) (from_ to_ : Option String) (value gasLimit gasUsed : String)
       (success : Bool) (error revertReason : Option String) (depth : Nat)
       (decodedFunction : Option DecodedFunction) (events : List ParsedEvent)
       (subcalls : List ParsedCall)

def ParsedCall.type : ParsedCall → CallType
  | .mk t _ _ _ _ _ _ _ _ _ _ _ _ => t

def ParsedCall.from_ : ParsedCall → Option String
  | .mk _ f _ _ _ _ _ _ _ _ _ _ _ => f

def ParsedCall.to_ : ParsedCall → Option String
  | .mk _ _ t _ _ _ _ _ _ _ _ _ _ => t

def ParsedCall.value : ParsedCall → String
  | .mk _ _ _ v _ _ _ _ _ _ _ _ _ => v

def ParsedCall.gasLimit : ParsedCall → String
  | .mk _ _ _ _ g _ _ _ _ _ _ _ _ => g

def ParsedCall.gasUsed : ParsedCall → String
  | .mk _ _ _ _ _ g _ _ _ _ _ _ _ => g

def ParsedCall.success : ParsedCall → Bool
  | .mk _ _ _ _ _ _ s _ _ _ _ _ _ => s

def ParsedCall.error : ParsedCall → Option String
  | .mk _ _ _ _ _ _ _ e _ _ _ _ _ => e

def ParsedCall.revertReason : ParsedCall → Option String
  | .mk _ _ _ _ _ _ _ _ r _ _ _ _ => r

def ParsedCall.depth : ParsedCall → Nat
  | .mk _ _ _ _ _ _ _ _ _ d _ _ _ => d

def ParsedCall.decodedFunction : ParsedCall → Option DecodedFunction
  | .mk _ _ _ _ _ _ _ _ _ _ f _ _ => f

def ParsedCall.events : ParsedCall → List ParsedEvent
  | .mk _ _ _ _ _ _ _ _ _ _ _ e _ => e

def ParsedCall.subcalls : ParsedCall → List ParsedCall
  | .mk _ _ _ _ _ _ _ _ _ _ _ _ s => s

structure ParsedTrace where
  transaction : TransactionInfo
  rootCall : ParsedCall
  totalGasUsed : String
  events : List ParsedEvent

/-- Truthiness of an optional string field (`undefined` and `''` are falsy). -/
def optStrTruthy (v : Option String) : Bool :=
  match v with
  | some s => s != ""
  | none => false

/-- Models `v || d` on an optional string field. -/
def jsOrStr (v : Option String) (d : String) : String :=
  match v with
  | some s => if s == "" then d else s
  | none => d

/-- Models `TraceParser.getCallType` (trace-parser.ts lines 90-103): the
lowercased `type` tag is matched against the five known kinds, anything else
falls back to plain `call`. -/
def getCallType (ty : Option String) : CallType :=
  match ty with
  | none => .call
  | some t =>
    let l := strLower t
    if l == "call" then .call
    else if l == "staticcall" then .staticcall
    else if l == "delegatecall" then .delegatecall
    else if l == "create" then .create
    else if l == "create2" then .create2
    else .call

/-- Models `ethers.AbiCoder.defaultAbiCoder().decode(['string'], data)`:
offset word, length word at that offset, then the string bytes.  Byte
sequences containing a non-ASCII byte are treated as a decode failure
(multi-byte UTF-8 decoding is not modelled; no claim exercises it). -/
def abiDecodeStringArg (dataHex : String) : Option String := do
  let bytes ← hexBytes dataHex
  let off ← wordAt bytes 0
  let len ← wordAt bytes off
  if off + 32 + len ≤ bytes.length then
    let strBytes := (bytes.drop (off + 32)).take len
    if strBytes.all (· < 128) then some ⟨strBytes.map Char.ofNat⟩ else none
  else none

structure CallResult where
  success : Bool
  error : Option String
  revertReason : Option String

/-- Models `TraceParser.parseCallResult` (trace-parser.ts lines 108-143):
success is the absence of a truthy `error`; on failure, a revert reason is
extracted only when the output is longer than 10 characters and starts with
the `Error(string)` selector, falling back to the raw output when the ABI
string decode throws. -/
def parseCallResult (err output : Option String) : CallResult :=
  if optStrTruthy err then
    { success := false,
      error := err,
      revertReason :=
        match output with
        | some out =>
          if strLen out > 10 then
            if strStarts out "0x08c379a0" then
              match abiDecodeStringArg ("0x" ++ strDrop out 10) with
              | some reason => some reason
              | none => some out
            else none
          else none
        | none => none }
  else
    { success := true, error := none, revertReason := none }

mutual
/-- Models `TraceParser.parseCall` / its subcall loop (trace-parser.ts lines
43-85).  The sequential `await`s thread the ABI cache state left to right:
first the function decode of this call, then the subcalls in order.  The
`events` list of a freshly parsed call is `[]`; `parseLogs` fills the root's
list later. -/
def parseCall (registry : String → List String) (st : ABIState) :
    TraceCall → Nat → ParsedCall × ABIState
  | .mk ty fr toA v g gu inp out err cs, depth =>
    let dec :=
      if optStrTruthy inp && (inp != some "0x") && optStrTruthy toA then
        decodeFunctionCall registry st (toA.getD "") (inp.getD "")
      else (none, st)
    let res := parseCallResult err out
    let sub := parseCalls registry dec.2 cs (depth + 1)
    (.mk (getCallType ty) fr toA (jsOrStr v "0x0") (jsOrStr g "0") (jsOrStr gu "0")
       res.success res.error res.revertReason depth dec.1 [] sub.1, sub.2)

def parseCalls (registry : String → List String) (st : ABIState) :
    List TraceCall → Nat → List ParsedCall × ABIState
  | [], _ => ([], st)
  | c :: rest, depth =>
    let p := parseCall registry st c depth
    let ps := parseCalls registry p.2 rest depth
    (p.1 :: ps.1, ps.2)
end

mutual
/-- Models `TraceParser.extractAllEvents`: this call's events followed by the
subcalls' events, depth first. -/
def extractAllEvents : ParsedCall → List ParsedEvent
  | .mk _ _ _ _ _ _ _ _ _ _ _ events subcalls => events ++ extractAllEventsList subcalls

def extractAllEventsList : List ParsedCall → List ParsedEvent
  | [] => []
  | c :: rest => extractAllEvents c ++ extractAllEventsList rest
end

/-- Models `TraceParser.parseTrace` (trace-parser.ts lines 19-38): an empty
top-level call list is fatal; otherwise the root call is parsed from
`calls[0]` at depth 0, and `events` is the flattening of the tree as built
at this point — which runs BEFORE `parseLogs` attaches any event. -/
def parseTrace (registry : String → List String) (st : ABIState)
    (rawTrace : RawTrace) (transactionInfo : TransactionInfo) :
    Except String (ParsedTrace × ABIState) :=
  match rawTrace.calls with
  | [] => .error "No trace data to parse"
  | c :: _ =>
    let root := parseCall registry st c 0
    .ok ({ transaction := transactionInfo,
           rootCall := root.1,
           totalGasUsed := rawTrace.gasUsed,
           events := extractAllEvents root.1 }, root.2)

/-- Builds the `ParsedEvent` for each receipt log in order (the loop body of
`TraceParser.parseLogs`, trace-parser.ts lines 164-190).  Event decoding is
cache-only, so no ABI state is returned. -/
def buildLogEvents (st : ABIState) : List RawLog → Nat → List ParsedEvent
  | [], _ => []
  | log :: rest, i =>
    let topics := log.topics.getD []
    { address := log.address,
      logIndex := i,
      rawTopics := topics,
      rawData := jsOrStr log.data "0x",
      decodedEvent :=
        if topics.length > 0 then decodeEventLog st topics (jsOrStr log.data "0x")
        else none } :: buildLogEvents st rest (i + 1)

/-- Appends events to a call's event list (the repeated
`parsedTrace.rootCall.events.push(...)`). -/
def pushEvents : ParsedCall → List ParsedEvent → ParsedCall
  | .mk ty fr toA v g gu s e rr d df evs subs, newEvs =>
    .mk ty fr toA v g gu s e rr d df (evs ++ newEvs) subs

/-- Models `TraceParser.parseLogs` (trace-parser.ts lines 161-192): every
decoded receipt log is pushed onto `parsedTrace.rootCall.events` in place.
`parsedTrace.events` is a separate array built earlier by
`extractAllEvents` and is not touched; the record update below updates the
root call only, mirroring that aliasing. -/
def parseLogs (st : ABIState) (logs : List RawLog) (parsedTrace : ParsedTrace) :
    ParsedTrace :=
  { parsedTrace with
    rootCall := pushEvents parsedTrace.rootCall (buildLogEvents st logs 0) }

/-- A registry oracle that returns no candidates (network failure / unknown
selector); used by the concrete scenarios, which only exercise the seeded
caches. -/
def emptyRegistry : String → List String := fun _ => []

/-! ### Claim C2 — revert reason for non-conforming error output -/

/-- A failed raw call whose `output` does not start with the `Error(string)`
selector `0x08c379a0`. -/
def revertedCall : TraceCall :=
  .mk (some "call") (some "0xaa") (some "0xbb") none none none none
    (some "0xdeadbeefdead") (some "execution reverted") []

/-- Claim C2 counterexample: for a call whose `error` is set and whose
output does not start with the standard revert selector, the built
ParsedCall has `success = false` but `revertReason` is `none`, NOT the raw
output string — only the selector-prefixed-but-undecodable case falls back
to the raw output. -/
theorem parseCall_raw_output_counterexample :
    ((parseCall emptyRegistry initialABIState revertedCall 0).1).success = false ∧
    strStarts "0xdeadbeefdead" "0x08c379a0" = false ∧
    ((parseCall emptyRegistry initialABIState revertedCall 0).1).revertReason = none ∧
    ((parseCall emptyRegistry initialABIState revertedCall 0).1).revertReason ≠
      some "0xdeadbeefdead" := by
  refine ⟨rfl, rfl, rfl, ?_⟩
  rw [show ((parseCall emptyRegistry initialABIState revertedCall 0).1).revertReason =
    none from rfl]
  simp

theorem parseCallResult_no_selector (err output : Option String) (e : String)
    (h1 : err = some e) (h2 : e ≠ "")
    (h3 : ∀ out, output = some out → strStarts out "0x08c379a0" = false) :
    (parseCallResult err output).success = false ∧
    (parseCallResult err output).revertReason = none := by
  subst h1
  have htr : optStrTruthy (some e) = true := by simp [optStrTruthy, h2]
  unfold parseCallResult
  rw [htr]
  refine ⟨rfl, ?_⟩
  cases output with
  | none => rfl
  | some out =>
    simp only
    split
    · rw [h3 out rfl]
      simp
    · rfl

/-- Claim C2 amended: for every raw call whose `error` field is set (to a
truthy string) and whose `output` does not start with the `Error(string)`
selector `0x08c379a0`, the built ParsedCall has `success = false` and
`revertReason = none`; the raw-output fallback applies only to output that
does start with the selector but whose tail fails to ABI-decode. -/
theorem parseCall_error_without_selector (registry : String → List String)
    (st : ABIState) (call : TraceCall) (depth : Nat) (e : String)
    (h1 : call.error = some e) (h2 : e ≠ "")
    (h3 : ∀ out, call.output = some out → strStarts out "0x08c379a0" = false) :
    ((parseCall registry st call depth).1).success = false ∧
    ((parseCall registry st call depth).1).revertReason = none := by
  cases call with
  | mk ty fr toA v g gu inp out err cs =>
    have herr : err = some e := h1
    have hout : ∀ o, out = some o → strStarts o "0x08c379a0" = false := h3
    have hres := parseCallResult_no_selector err out e herr h2 hout
    simp only [parseCall]
    exact ⟨by simp [ParsedCall.success, hres.1], by simp [ParsedCall.revertReason, hres.2]⟩

/-- Claim C2 amended witness: the amended statement applied to the concrete
failed call above. -/
theorem parseCall_error_without_selector_witness :
    ((parseCall emptyRegistry initialABIState revertedCall 0).1).success = false ∧
    ((parseCall emptyRegistry initialABIState revertedCall 0).1).revertReason = none :=
  parseCall_error_without_selector emptyRegistry initialABIState revertedCall 0
    "execution reverted" rfl (by simp)
    (by intro out hout; cases hout; rfl)

/-! ### Claim C6 — depth invariant -/

mutual
/-- Depth invariant predicate: every subcall's depth is the parent's depth
plus one, recursively. -/
def depthOk : ParsedCall → Bool
  | .mk _ _ _ _ _ _ _ _ _ d _ _ subs => depthOkChildren subs d

def depthOkChildren : List ParsedCall → Nat → Bool
  | [], _ => true
  | c :: rest, d => (c.depth == d + 1) && depthOk c && depthOkChildren rest d
end

theorem parseCall_depth (registry : String → List String) (st : ABIState)
    (c : TraceCall) (d : Nat) : ((parseCall registry st c d).1).depth = d := by
  cases c
  simp [parseCall, ParsedCall.depth]

theorem parse_depth_invariant_aux (registry : String → List String) :
    ∀ n : Nat,
      (∀ (c : TraceCall) (st : ABIState) (d : Nat), sizeOf c ≤ n →
        depthOk ((parseCall registry st c d).1) = true) ∧
      (∀ (cs : List TraceCall) (st : ABIState) (d : Nat), sizeOf cs ≤ n →
        depthOkChildren ((parseCalls registry st cs (d + 1)).1) d = true) := by
  intro n
  induction n with
  | zero =>
    constructor
    · intro c st d hc
      cases c
      simp_arith at hc
    · intro cs st d hc
      cases cs with
      | nil => simp [parseCalls, depthOkChildren]
      | cons c rest => simp_arith at hc
  | succ n ih =>
    constructor
    · intro c st d hc
      cases c with
      | mk ty fr toA v g gu inp out err cs =>
        have hcs : sizeOf cs ≤ n := by
          simp_arith at hc
          omega
        simp only [parseCall, depthOk]
        exact ih.2 cs _ d hcs
    · intro cs st d hc
      cases cs with
      | nil => simp [parseCalls, depthOkChildren]
      | cons c rest =>
        have hsz : sizeOf c ≤ n ∧ sizeOf rest ≤ n := by
          simp_arith at hc
          omega
        simp only [parseCalls, depthOkChildren]
        rw [parseCall_depth]
        simp [ih.1 c st (d + 1) hsz.1, ih.2 rest _ d hsz.2]

/-- Claim C6: in every ParsedTrace produced by `parseTrace`, the root call
has depth 0 and every subcall's depth is its parent's depth plus one. -/
theorem parseTrace_depth_invariant (registry : String → List String) (st : ABIState)
    (rawTrace : RawTrace) (txInfo : TransactionInfo) (pt : ParsedTrace) (st1 : ABIState)
    (h : parseTrace registry st rawTrace txInfo = .ok (pt, st1)) :
    pt.rootCall.depth = 0 ∧ depthOk pt.rootCall = true := by
  unfold parseTrace at h
  rcases hcs : rawTrace.calls with _ | ⟨c, rest⟩
  · rw [hcs] at h
    exact absurd h (by simp)
  · rw [hcs] at h
    injection h with h2
    rw [Prod.mk.injEq] at h2
    obtain ⟨hpt, _⟩ := h2
    have hroot : pt.rootCall = (parseCall registry st c 0).1 := by rw [← hpt]
    rw [hroot]
    exact ⟨parseCall_depth registry st c 0,
      (parse_depth_invariant_aux registry (sizeOf c)).1 c st 0 le_rfl⟩

def witnessSubCall : TraceCall :=
  .mk (some "STATICCALL") (some "0xbb") (some "0xcc") none none none none none none []

def witnessRootCall : TraceCall :=
  .mk (some "call") (some "0xaa") (some "0xbb") none none none none none none
    [witnessSubCall]

def witnessRaw : RawTrace := { calls := [witnessRootCall], gasUsed := "0x100" }

def witnessTx : TransactionInfo :=
  { hash := "0x1", blockNumber := 1, from_ := "0xaa", to_ := some "0xbb",
    value := "0", gasUsed := "0x100", gasPrice := "1", status := 1 }

/-- The tree `parseCall` builds from `witnessRootCall`. -/
def witnessParsedRoot : ParsedCall :=
  .mk .call (some "0xaa") (some "0xbb") "0x0" "0" "0" true none none 0 none []
    [.mk .staticcall (some "0xbb") (some "0xcc") "0x0" "0" "0" true none none 1 none [] []]

/-- Claim C6 witness: the depth invariant at a concrete two-node trace. -/
theorem parseTrace_depth_invariant_witness :
    parseTrace emptyRegistry initialABIState witnessRaw witnessTx =
      .ok ({ transaction := witnessTx, rootCall := witnessParsedRoot,
             totalGasUsed := "0x100", events := [] }, initialABIState) ∧
    witnessParsedRoot.depth = 0 ∧ depthOk witnessParsedRoot = true :=
  ⟨rfl, parseTrace_depth_invariant emptyRegistry initialABIState witnessRaw witnessTx
    { transaction := witnessTx, rootCall := witnessParsedRoot,
      totalGasUsed := "0x100", events := [] } initialABIState rfl⟩

/-! ### Claim C10 — only the first top-level call is parsed -/

/-- Claim C10: for a raw trace with a non-empty top-level call list,
`parseTrace` builds the result from `calls[0]` alone — the result is
identical to parsing a trace containing just the first call (with the same
`gasUsed` and `logs`), so no part of the output derives from any later
top-level call. -/
theorem parseTrace_uses_first_call_only (registry : String → List String)
    (st : ABIState) (c : TraceCall) (rest : List TraceCall) (g : String)
    (lg : Option (List RawLog)) (txInfo : TransactionInfo) :
    parseTrace registry st { calls := c :: rest, gasUsed := g, logs := lg } txInfo =
      parseTrace registry st { calls := [c], gasUsed := g, logs := lg } txInfo := rfl

/-! ### Claim C1 — scenario A: a transfer call with Transfer and Approval logs -/

def tokenAddr : String := "0xdac17f958d2ee523a2206206994597c13d831ec7"

/-- Calldata for `transfer(0x2222...22, 1000)`: the ERC-20 selector followed
by the two ABI-encoded words. -/
def transferInput : String :=
  "0xa9059cbb" ++
  "0000000000000000000000002222222222222222222222222222222222222222" ++
  "00000000000000000000000000000000000000000000000000000000000003e8"

def scenarioACall : TraceCall :=
  .mk (some "call") (some "0x1111111111111111111111111111111111111111")
    (some tokenAddr) (some "0x0") (some "0x15f90") (some "0xcf08")
    (some transferInput) (some "0x") none []

def scenarioARaw : RawTrace := { calls := [scenarioACall], gasUsed := "0xcf08" }

def scenarioATx : TransactionInfo :=
  { hash := "0x2", blockNumber := 2,
    from_ := "0x1111111111111111111111111111111111111111",
    to_ := some tokenAddr, value := "0x0", gasUsed := "0xcf08",
    gasPrice := "1", status := 1 }

def addrTopic1 : String :=
  "0x0000000000000000000000001111111111111111111111111111111111111111"

def addrTopic2 : String :=
  "0x0000000000000000000000002222222222222222222222222222222222222222"

def amountData : String :=
  "0x00000000000000000000000000000000000000000000000000000000000003e8"

/-- The receipt's two logs: a `Transfer` and an `Approval`. -/
def scenarioALogs : List RawLog :=
  [{ address := some tokenAddr, topics := some [transferTopic, addrTopic1, addrTopic2],
     data := some amountData },
   { address := some tokenAddr, topics := some [approvalTopic, addrTopic1, addrTopic2],
     data := some amountData }]

/-- The final ParsedTrace of scenario A: `parseTrace` followed by
`parseLogs` on the two receipt logs (the `.error` arm is unreachable and
holds a placeholder). -/
def scenarioAFinal : ParsedTrace :=
  match parseTrace emptyRegistry initialABIState scenarioARaw scenarioATx with
  | .ok pr => parseLogs pr.2 scenarioALogs pr.1
  | .error _ =>
    { transaction := scenarioATx,
      rootCall := .mk .call none none "0x0" "0" "0" true none none 0 none [] [],
      totalGasUsed := "0", events := [] }

set_option maxRecDepth 40000

/-- Claim C1, evaluated on the code at the scenario input: after
`parseTrace` followed by `parseLogs`, the root call's decoded function is
`transfer` and the two receipt logs decode as `Transfer` and `Approval` —
but they are attached to `rootCall.events`, while `ParsedTrace.events`
(computed by `extractAllEvents` before `parseLogs` ran) is still empty, so
the claimed `events.length = 2` fails on the code as written. -/
theorem scenarioA_events_not_flattened :
    scenarioAFinal.rootCall.decodedFunction.map (fun d => d.name) = some "transfer" ∧
    scenarioAFinal.events.length = 0 ∧
    scenarioAFinal.rootCall.events.length = 2 ∧
    scenarioAFinal.rootCall.events.map (fun e => e.decodedEvent.map (fun d => d.name)) =
      [some "Transfer", some "Approval"] :=
  ⟨rfl, rfl, rfl, rfl⟩

/-! ### Token Metadata Resolver (`TokenService`, token.ts) -/

structure TokenInfo where
  name : String
  symbol : String
  decimals : Nat
  address : String

/-- Outcome of the three `Promise.all` ERC-20 reads with their per-read
`.catch` defaults already applied: a failed `name()`/`symbol()` read yields
`''` and a failed `decimals()` read yields `18`. -/
structure TokenReads where
  name : String
  symbol : String
  decimals : Nat

def TokenCache := List (String × TokenInfo)

/-- Models `loadWellKnownTokens` (token.ts lines 38-52). -/
def wellKnownTokens : List TokenInfo :=
  [{ address := "0x15D4c048F83bd7e37d49eA4C83a07267Ec4203dA", name := "Gala (V1)",
     symbol := "GALA", decimals := 8 },
   { address := "0xdBf4d0c1b85BB7fEFDbF7C14f7D83CC4F3Bd79BB", name := "Gala",
     symbol := "GALA", decimals := 8 },
   { address := "0xdAC17F958D2ee523a2206206994597C13D831ec7", name := "Tether USD",
     symbol := "USDT", decimals := 6 },
   { address := "0x6B175474E89094C44Da98b954EedeAC495271d0F", name := "DAI Stablecoin",
     symbol := "DAI", decimals := 18 },
   { address := "0xC02aaA39b223FE8D0A0e5C4F27eAD9083C756Cc2", name := "Wrapped Ether",
     symbol := "WETH", decimals := 18 },
   { address := "0xA0b73E1Ff0B80914AB6fe0444E65848C4C34450b",
     name := "Curve.fi Registry Exchange", symbol := "CRV Exchange", decimals := 0 }]

def initialTokenCache : TokenCache :=
  wellKnownTokens.map fun t => (strLower t.address, t)

/-- The `tokenInfo` object built on a successful resolution (token.ts lines
80-85), with the `||` defaults on name and symbol. -/
def tokenInfoOf (r : TokenReads) (address : String) : TokenInfo :=
  { name := if r.name == "" then "Unknown Token" else r.name,
    symbol := if r.symbol == "" then "UNK" else r.symbol,
    decimals := r.decimals,
    address := address }

/-- Models `TokenService.getTokenInfo` (token.ts lines 57-95).  The `reads`
oracle models the external ERC-20 introspection; `none` models a throw
outside the three guarded reads (e.g. contract construction), caught by the
outer `try` and yielding `null`.  The returned `Nat` counts external
resolutions performed by this call (0 on a cache hit, 1 otherwise). -/
def getTokenInfo (reads : String → Option TokenReads) (cache : TokenCache)
    (address : String) : Option TokenInfo × TokenCache × Nat :=
  match lookupAssoc cache (strLower address) with
  | some ti => (some ti, cache, 0)
  | none =>
    match reads address with
    | none => (none, cache, 1)
    | some r =>
      if r.name != "" || r.symbol != "" then
        (some (tokenInfoOf r address),
         assocSet (strLower address) (tokenInfoOf r address) cache, 1)
      else (none, cache, 1)

/-- Models `getCachedTokenInfo` (token.ts lines 153-155): a pure cache
lookup (`this.tokenCache.get(address.toLowerCase()) || null`); by its type
it performs no external read. -/
def getCachedTokenInfo (cache : TokenCache) (address : String) : Option TokenInfo :=
  lookupAssoc cache (strLower address)

/-- An oracle for which neither `name` nor `symbol` resolves. -/
def negativeReads : String → Option TokenReads :=
  fun _ => some { name := "", symbol := "", decimals := 18 }

/-- Claim C9 counterexample: when neither `name` nor `symbol` resolves, the
failed resolution is not cached, so a second `getTokenInfo` call for the
same address performs the external resolution AGAIN — two calls perform two
external resolutions, refuting "at most once" as a universal statement. -/
theorem getTokenInfo_retries_counterexample :
    (getTokenInfo negativeReads initialTokenCache "0x0123").2.2 = 1 ∧
    (getTokenInfo negativeReads
        (getTokenInfo negativeReads initialTokenCache "0x0123").2.1 "0x0123").2.2 = 1 ∧
    (getTokenInfo negativeReads initialTokenCache "0x0123").1 = none :=
  ⟨rfl, rfl, rfl⟩

theorem lookupAssoc_assocSet {α : Type} (k : String) (v : α) (m : List (String × α)) :
    lookupAssoc (assocSet k v m) k = some v := by
  simp [lookupAssoc, assocSet]

theorem getTokenInfo_cacheHit (reads : String → Option TokenReads) (cache : TokenCache)
    (address : String) (ti : TokenInfo)
    (hl : lookupAssoc cache (strLower address) = some ti) :
    getTokenInfo reads cache address = (some ti, cache, 0) := by
  unfold getTokenInfo
  rw [hl]

theorem getTokenInfo_miss_noReads (reads : String → Option TokenReads)
    (cache : TokenCache) (address : String)
    (hl : lookupAssoc cache (strLower address) = none) (hr : reads address = none) :
    getTokenInfo reads cache address = (none, cache, 1) := by
  unfold getTokenInfo
  rw [hl, hr]

theorem getTokenInfo_miss_resolved (reads : String → Option TokenReads)
    (cache : TokenCache) (address : String) (r : TokenReads)
    (hl : lookupAssoc cache (strLower address) = none) (hr : reads address = some r)
    (hcond : (r.name != "" || r.symbol != "") = true) :
    getTokenInfo reads cache address =
      (some (tokenInfoOf r address),
       assocSet (strLower address) (tokenInfoOf r address) cache, 1) := by
  unfold getTokenInfo
  rw [hl, hr]
  simp [hcond]

theorem getTokenInfo_miss_negative (reads : String → Option TokenReads)
    (cache : TokenCache) (address : String) (r : TokenReads)
    (hl : lookupAssoc cache (strLower address) = none) (hr : reads address = some r)
    (hcond : (r.name != "" || r.symbol != "") = false) :
    getTokenInfo reads cache address = (none, cache, 1) := by
  unfold getTokenInfo
  rw [hl, hr]
  simp [hcond]

/-- Claim C9 amended: (1) when `getTokenInfo` returns a token, the result is
cached under the lowercased address and a second call is served from the
cache with no external resolution; (2) when it returns `null` — in
particular when neither `name` nor `symbol` resolved — no cache entry is
stored, so a later call retries the resolution; (3) `getCachedTokenInfo` is
a pure lookup and returns `none` for any address not yet cached. -/
theorem getTokenInfo_cache_behavior (reads : String → Option TokenReads)
    (cache : TokenCache) (address : String) :
    (∀ ti cache1 n, getTokenInfo reads cache address = (some ti, cache1, n) →
      getTokenInfo reads cache1 address = (some ti, cache1, 0)) ∧
    (∀ cache1 n, getTokenInfo reads cache address = (none, cache1, n) →
      cache1 = cache) ∧
    (lookupAssoc cache (strLower address) = none →
      getCachedTokenInfo cache address = none) := by
  refine ⟨?_, ?_, ?_⟩
  · intro ti cache1 n h
    cases hl : lookupAssoc cache (strLower address) with
    | some t0 =>
      rw [getTokenInfo_cacheHit reads cache address t0 hl] at h
      simp only [Prod.mk.injEq, Option.some.injEq] at h
      obtain ⟨h1, h2, _⟩ := h
      subst h1
      rw [← h2]
      exact getTokenInfo_cacheHit reads cache address t0 hl
    | none =>
      cases hr : reads address with
      | none =>
        rw [getTokenInfo_miss_noReads reads cache address hl hr] at h
        simp at h
      | some r =>
        cases hcond : (r.name != "" || r.symbol != "") with
        | true =>
          rw [getTokenInfo_miss_resolved reads cache address r hl hr hcond] at h
          simp only [Prod.mk.injEq, Option.some.injEq] at h
          obtain ⟨h1, h2, _⟩ := h
          subst h1
          rw [← h2]
          exact getTokenInfo_cacheHit reads _ address _ (lookupAssoc_assocSet _ _ _)
        | false =>
          rw [getTokenInfo_miss_negative reads cache address r hl hr hcond] at h
          simp at h
  · intro cache1 n h
    cases hl : lookupAssoc cache (strLower address) with
    | some t0 =>
      rw [getTokenInfo_cacheHit reads cache address t0 hl] at h
      simp at h
    | none =>
      cases hr : reads address with
      | none =>
        rw [getTokenInfo_miss_noReads reads cache address hl hr] at h
        simp only [Prod.mk.injEq] at h
        exact h.2.1.symm
      | some r =>
        cases hcond : (r.name != "" || r.symbol != "") with
        | true =>
          rw [getTokenInfo_miss_resolved reads cache address r hl hr hcond] at h
          simp at h
        | false =>
          rw [getTokenInfo_miss_negative reads cache address r hl hr hcond] at h
          simp only [Prod.mk.injEq] at h
          exact h.2.1.symm
  · intro h
    unfold getCachedTokenInfo
    exact h

/-- An oracle that resolves name and symbol. -/
def goodReads : String → Option TokenReads :=
  fun _ => some { name := "Test Token", symbol := "TT", decimals := 9 }

def cachedTT : TokenInfo :=
  { name := "Test Token", symbol := "TT", decimals := 9, address := "0xAB12" }

/-- Claim C9 amended witness: one successful resolution at a concrete
address, then a cache hit with zero external resolutions, and the pre-state
cache lookup is `none`. -/
theorem getTokenInfo_cache_behavior_witness :
    getTokenInfo goodReads initialTokenCache "0xAB12" =
      (some cachedTT, assocSet "0xab12" cachedTT initialTokenCache, 1) ∧
    getTokenInfo goodReads (assocSet "0xab12" cachedTT initialTokenCache) "0xAB12" =
      (some cachedTT, assocSet "0xab12" cachedTT initialTokenCache, 0) ∧
    getCachedTokenInfo initialTokenCache "0xAB12" = none :=
  ⟨rfl,
   (getTokenInfo_cache_behavior goodReads initialTokenCache "0xAB12").1 cachedTT
     (assocSet "0xab12" cachedTT initialTokenCache) 1 rfl,
   (getTokenInfo_cache_behavior goodReads initialTokenCache "0xAB12").2.2 rfl⟩

/-! ### Protocol Detector (`DefiDetector`, defi-detector.ts)

The token service handed to the detector is modelled by an optional oracle
`String → Option TokenInfo` standing for `await tokenService.getTokenInfo`.
A thrown JavaScript exception is an `Except.error`; the only reachable
throw site in the detector is `call.to.toLowerCase()` on a call without a
`to` address (a TypeError at runtime, since the TypeScript annotation is
erased), which `analyzeTrace`'s `catch` absorbs. -/

inductive JsError where
  | typeError : JsError

def SupportedProtocols.UNISWAP_V2 : String := "uniswap-v2"

structure ContractSignature where
  address : String
  name : String
  protocol : String
  version : String
  type : String

structure FunctionSignature where
  selector : String
  name : String
  protocol : String
  confidence : ℚ

/-- Models the contract-address table of `initializeSignatures`
(defi-detector.ts lines 151-174). -/
def contractSignatures : List (String × ContractSignature) :=
  [("0x7a250d5630b4cf539739df2c5dacb4c659f2488d",
    { address := "0x7a250d5630b4cf539739df2c5dacb4c659f2488d",
      name := "Uniswap V2 Router 02", protocol := SupportedProtocols.UNISWAP_V2,
      version := "2.0", type := "router" }),
   ("0x5c69bee701ef814a2b6a3edd4b1652cb9cc5aa6f",
    { address := "0x5c69bee701ef814a2b6a3edd4b1652cb9cc5aa6f",
      name := "Uniswap V2 Factory", protocol := SupportedProtocols.UNISWAP_V2,
      version := "2.0", type := "factory" })]

/-- Models the function-signature table of `initializeSignatures`
(defi-detector.ts lines 176-231). -/
def functionSignatures : List (String × FunctionSignature) :=
  [("swapExactTokensForTokens",
    { selector := "0x38ed1739", name := "swapExactTokensForTokens",
      protocol := SupportedProtocols.UNISWAP_V2, confidence := 95/100 }),
   ("swapTokensForExactTokens",
    { selector := "0x8803dbee", name := "swapTokensForExactTokens",
      protocol := SupportedProtocols.UNISWAP_V2, confidence := 95/100 }),
   ("swapExactETHForTokens",
    { selector := "0x7ff36ab5", name := "swapExactETHForTokens",
      protocol := SupportedProtocols.UNISWAP_V2, confidence := 95/100 }),
   ("swapTokensForExactETH",
    { selector := "0x4a25d94a", name := "swapTokensForExactETH",
      protocol := SupportedProtocols.UNISWAP_V2, confidence := 95/100 }),
   ("swapExactTokensForETH",
    { selector := "0x18cbafe5", name := "swapExactTokensForETH",
      protocol := SupportedProtocols.UNISWAP_V2, confidence := 95/100 }),
   ("swapETHForExactTokens",
    { selector := "0xfb3bdb41", name := "swapETHForExactTokens",
      protocol := SupportedProtocols.UNISWAP_V2, confidence := 95/100 }),
   ("addLiquidity",
    { selector := "0xe8e33700", name := "addLiquidity",
      protocol := SupportedProtocols.UNISWAP_V2, confidence := 90/100 }),
   ("removeLiquidity",
    { selector := "0xbaa2abde", name := "removeLiquidity",
      protocol := SupportedProtocols.UNISWAP_V2, confidence := 90/100 })]

structure DetectionResult where
  confidence : ℚ
  protocol : String
  version : Option String := none
  evidence : List String
  contractAddress : Option String
  functionName : Option String

/-- Models `detectProtocolFromCall` (defi-detector.ts lines 97-127): the
target address is matched first (confidence 0.9), then the decoded function
name (at the signature's stored confidence).  `call.to.toLowerCase()`
throws a TypeError when the raw trace had no `to` (e.g. a create call). -/
def detectProtocolFromCall (call : ParsedCall) :
    Except JsError (Option DetectionResult) :=
  match call.to_ with
  | none => .error .typeError
  | some t =>
    match lookupAssoc contractSignatures (strLower t) with
    | some contract =>
      .ok (some { confidence := 9/10, protocol := contract.protocol,
                  version := some contract.version,
                  evidence := ["Contract address: " ++ t],
                  contractAddress := call.to_,
                  functionName := call.decodedFunction.map (fun d => d.name) })
    | none =>
      match call.decodedFunction with
      | some df =>
        match lookupAssoc functionSignatures df.name with
        | some f =>
          .ok (some { confidence := f.confidence, protocol := f.protocol,
                      version := none,
                      evidence := ["Function: " ++ f.name],
                      contractAddress := call.to_,
                      functionName := some f.name })
        | none => .ok none
      | none => .ok none

structure SwapToken where
  symbol : String
  decimals : Nat
  address : String
  name : String

structure SwapDetails where
  tokenIn : SwapToken
  tokenOut : SwapToken
  amountIn : AbiValue
  amountOut : AbiValue
  route : Option (List SwapToken)
  isMultiHop : Bool

/-- JavaScript truthiness of a decoded parameter value (arrays are always
truthy, even empty ones). -/
def jsTruthyV : AbiValue → Bool
  | .str s => s != ""
  | .bool b => b
  | .arr _ => true

/-- Models `v || d` on a duck-typed decoded value. -/
def jsOrV (v : Option AbiValue) (d : AbiValue) : AbiValue :=
  match v with
  | some x => if jsTruthyV x then x else d
  | none => d

/-- Models `inputs.find(i => i.name === n)?.value`. -/
def findParamValue (inputs : List DecodedParam) (pname : String) : Option AbiValue :=
  (inputs.find? fun i => i.name == pname).map (fun i => i.value)

/-- Models `v.length` on the duck-typed `path` value: arrays and strings
have a length, anything else gives `undefined` (and a comparison of
`undefined` with a number is false in JavaScript). -/
def jsLength : AbiValue → Option Nat
  | .arr l => some l.length
  | .str s => some (strLen s)
  | .bool _ => none

/-- Models `v[i]`: array element, single-character string, or `undefined`. -/
def jsIndex : AbiValue → Nat → Option AbiValue
  | .arr l, i => l.get? i
  | .str s, i => (s.data.get? i).map fun c => .str ⟨[c]⟩
  | .bool _, _ => none

/-- Models calling `.toLowerCase()` on a duck-typed value: a TypeError
unless it is a string. -/
def requireStr : Option AbiValue → Except JsError String
  | some (.str s) => .ok s
  | _ => .error .typeError

/-- Models `for (const x of v)`: arrays iterate their elements, strings
their characters; anything else is not iterable and throws. -/
def jsIterate : AbiValue → Except JsError (List AbiValue)
  | .arr l => .ok l
  | .str s => .ok (s.data.map fun c => AbiValue.str ⟨[c]⟩)
  | .bool _ => .error .typeError

def WETH : String := "0xC02aaA39b223FE8D0A0e5C4F27eAD9083C756Cc2"

/-- Models the token-in/token-out resolution with the WETH-as-ETH display
special case (defi-detector.ts lines 361-389): the native-currency display
applies only when the function name mentions ETH; otherwise the optional
token service resolves the address, defaulting to an unknown-token record. -/
def resolveSwapToken (ts : Option (String → Option TokenInfo))
    (functionName addr : String) : SwapToken :=
  if strLower addr == strLower WETH && containsSub functionName "ETH" then
    { symbol := "ETH", decimals := 18, address := addr, name := "Ethereum" }
  else
    match ts with
    | some oracle =>
      match oracle addr with
      | some ti => { symbol := ti.symbol, decimals := ti.decimals,
                     address := addr, name := ti.name }
      | none => { symbol := "UNK", decimals := 18, address := addr,
                  name := "Unknown Token" }
    | none => { symbol := "UNK", decimals := 18, address := addr,
                name := "Unknown Token" }

/-- Models the multi-hop route loop (defi-detector.ts lines 394-407); note
the WETH display check here does NOT require an ETH-named function.  Each
element is lowercased first, so a non-string element throws. -/
def routeTokens (oracle : String → Option TokenInfo) :
    List AbiValue → Except JsError (List SwapToken)
  | [] => .ok []
  | v :: rest => do
    let addr ← requireStr (some v)
    let tok :=
      if strLower addr == strLower WETH then
        { symbol := "ETH", decimals := 18, address := addr, name := "Ethereum" }
      else
        match oracle addr with
        | some ti => { symbol := ti.symbol, decimals := ti.decimals,
                       address := addr, name := ti.name }
        | none => { symbol := "UNK", decimals := 18, address := addr,
                    name := "Unknown Token" : SwapToken }
    let toks ← routeTokens oracle rest
    .ok (tok :: toks)

/-- Body of `extractSwapDetails` inside its `try` (defi-detector.ts lines
328-417); an `Except.error` models a thrown exception.  The per-function
parameter chain sets (amountIn, amountOut, path); `path.length < 2` aborts
with null; the final record applies the `|| '0'` amount defaults, the
2-element route is dropped (`route.length > 2 ? route : undefined`), and
`isMultiHop` is `path.length > 2`. -/
def extractSwapDetailsBody (ts : Option (String → Option TokenInfo))
    (call : ParsedCall) (df : DecodedFunction) : Except JsError (Option SwapDetails) := do
  let inputs := df.inputs
  let functionName := df.name
  let triple :=
    if functionName == "swapExactTokensForTokens" ||
        functionName == "swapExactTokensForETH" then
      (jsOrV (findParamValue inputs "amountIn") (.str ""), AbiValue.str "",
        jsOrV (findParamValue inputs "path") (.arr []))
    else if functionName == "swapTokensForExactTokens" ||
        functionName == "swapTokensForExactETH" then
      (AbiValue.str "", jsOrV (findParamValue inputs "amountOut") (.str ""),
        jsOrV (findParamValue inputs "path") (.arr []))
    else if functionName == "swapExactETHForTokens" then
      (AbiValue.str (jsOrStr (some call.value) "0"), AbiValue.str "",
        jsOrV (findParamValue inputs "path") (.arr []))
    else if functionName == "swapETHForExactTokens" then
      (AbiValue.str "", jsOrV (findParamValue inputs "amountOut") (.str ""),
        jsOrV (findParamValue inputs "path") (.arr []))
    else
      (AbiValue.str "", AbiValue.str "", AbiValue.arr [])
  let path := triple.2.2
  if (match jsLength path with | some n => decide (n < 2) | none => false) then
    pure none
  else do
    let tokenInAddress ← requireStr (jsIndex path 0)
    let tokenOutAddress ← requireStr
      (match jsLength path with
       | some n => jsIndex path (n - 1)
       | none => none)
    let tokenIn := resolveSwapToken ts functionName tokenInAddress
    let tokenOut := resolveSwapToken ts functionName tokenOutAddress
    let multiHop := (match jsLength path with | some n => decide (n > 2) | none => false)
    let route ←
      match multiHop, ts with
      | true, some oracle => do
        let elems ← jsIterate path
        routeTokens oracle elems
      | _, _ => pure [tokenIn, tokenOut]
    pure (some
      { tokenIn := tokenIn, tokenOut := tokenOut,
        amountIn := jsOrV (some triple.1) (.str "0"),
        amountOut := jsOrV (some triple.2.1) (.str "0"),
        route := if route.length > 2 then some route else none,
        isMultiHop := multiHop })

/-- Models `extractSwapDetails` (defi-detector.ts lines 325-423): `null`
without a decoded function; its own `try`/`catch` converts any thrown error
into `null`. -/
def extractSwapDetails (ts : Option (String → Option TokenInfo))
    (call : ParsedCall) : Option SwapDetails :=
  match call.decodedFunction with
  | none => none
  | some df =>
    match extractSwapDetailsBody ts call df with
    | .ok r => r
    | .error _ => none

inductive DefiInteractionType where
  | swap : DefiInteractionType
  | liquidityAdd : DefiInteractionType
  | liquidityRemove : DefiInteractionType
  | lending : DefiInteractionType
  | borrowing : DefiInteractionType
  | staking : DefiInteractionType
  | unstaking : DefiInteractionType
  | yieldFarming : DefiInteractionType
  | flashLoan : DefiInteractionType
  | unknown : DefiInteractionType
deriving DecidableEq

/-- The string tag of each interaction type as it appears in the source. -/
def interactionTypeTag : DefiInteractionType → String
  | .swap => "swap"
  | .liquidityAdd => "liquidity_add"
  | .liquidityRemove => "liquidity_remove"
  | .lending => "lending"
  | .borrowing => "borrowing"
  | .staking => "staking"
  | .unstaking => "unstaking"
  | .yieldFarming => "yield_farming"
  | .flashLoan => "flash_loan"
  | .unknown => "unknown"

/-- The `details` bag built for a Uniswap V2 interaction
(`{...(swapDetails && {swapDetails}), functionName, gasUsed}`). -/
structure InteractionDetails where
  swapDetails : Option SwapDetails
  functionName : String
  gasUsed : String

structure DefiInteraction where
  type : DefiInteractionType
  protocol : String
  version : Option String := none
  description : String
  success : Bool
  details : InteractionDetails
  contractAddress : Option String
  functionName : Option String
  confidence : ℚ

def liquidityDescription (functionName : String) : String :=
  if containsSub functionName "addLiquidity" then "Add liquidity to Uniswap V2 pool"
  else if containsSub functionName "removeLiquidity" then
    "Remove liquidity from Uniswap V2 pool"
  else "Uniswap V2 " ++ functionName

/-- Models `generateInteractionDescription` (defi-detector.ts lines 428-448). -/
def generateInteractionDescription (functionName : String)
    (swapDetails : Option SwapDetails) : String :=
  match swapDetails with
  | some sd =>
    if containsSub functionName "swap" then
      let tin := if sd.tokenIn.symbol == "" then "Token" else sd.tokenIn.symbol
      let tout := if sd.tokenOut.symbol == "" then "Token" else sd.tokenOut.symbol
      if sd.isMultiHop then
        "Multi-hop token swap: " ++ tin ++ " → " ++ tout ++ " via Uniswap V2"
      else
        "Token swap: " ++ tin ++ " → " ++ tout ++ " via Uniswap V2"
    else liquidityDescription functionName
  | none => liquidityDescription functionName

/-- Models `analyzeUniswapV2Call` (defi-detector.ts lines 277-320): null
without a decoded function or for a failed call; the interaction type comes
from substring checks on the function name; swap details are extracted for
swap-type interactions only. -/
def analyzeUniswapV2Call (ts : Option (String → Option TokenInfo))
    (call : ParsedCall) (detection : DetectionResult) : Option DefiInteraction :=
  match call.decodedFunction with
  | none => none
  | some df =>
    if !call.success then none
    else
      let functionName := df.name
      let interactionType :=
        if containsSub functionName "swap" then DefiInteractionType.swap
        else if containsSub functionName "addLiquidity" then .liquidityAdd
        else if containsSub functionName "removeLiquidity" then .liquidityRemove
        else .unknown
      let swapDetails :=
        if interactionType = .swap then extractSwapDetails ts call else none
      some { type := interactionType,
             protocol := SupportedProtocols.UNISWAP_V2,
             version := some "2.0",
             description := generateInteractionDescription functionName swapDetails,
             success := call.success,
             details := { swapDetails := swapDetails, functionName := functionName,
                          gasUsed := call.gasUsed },
             contractAddress := call.to_,
             functionName := some functionName,
             confidence := detection.confidence }

/-- Models `convertDetectionToInteraction` (defi-detector.ts lines 133-145):
only Uniswap V2 detections produce an interaction; its `try`/`catch` would
return null on an internal throw, and no reachable sub-path throws past
`extractSwapDetails`'s own catch, so the conversion is total. -/
def convertDetectionToInteraction (ts : Option (String → Option TokenInfo))
    (call : ParsedCall) (detection : DetectionResult) : Option DefiInteraction :=
  if detection.protocol == SupportedProtocols.UNISWAP_V2 then
    analyzeUniswapV2Call ts call detection
  else none

mutual
/-- Models `analyzeCall` (defi-detector.ts lines 75-91): detect on this
call, convert a detection into an interaction, then recurse into the
subcalls, collecting interactions in pre-order.  A thrown TypeError
propagates upward. -/
def analyzeCall (ts : Option (String → Option TokenInfo)) :
    ParsedCall → Except JsError (List DefiInteraction)
  | .mk ty fr toA v g gu s e rr d df evs subs => do
    let det ← detectProtocolFromCall (.mk ty fr toA v g gu s e rr d df evs subs)
    let own :=
      match det with
      | some detection =>
        match convertDetectionToInteraction ts
            (.mk ty fr toA v g gu s e rr d df evs subs) detection with
        | some i => [i]
        | none => []
      | none => []
    let rest ← analyzeCallList ts subs
    pure (own ++ rest)

def analyzeCallList (ts : Option (String → Option TokenInfo)) :
    List ParsedCall → Except JsError (List DefiInteraction)
  | [] => pure []
  | c :: cs => do
    let a ← analyzeCall ts c
    let b ← analyzeCallList ts cs
    pure (a ++ b)
end

/-- Models `detectInteractions` (defi-detector.ts lines 62-69). -/
def detectInteractions (ts : Option (String → Option TokenInfo))
    (trace : ParsedTrace) : Except JsError (List DefiInteraction) :=
  analyzeCall ts trace.rootCall

/-- First-occurrence deduplication with the order `[...new Set(xs)]`
yields: an element is kept the first time it appears. -/
def distinctKeepAux (seen : List String) : List String → List String
  | [] => []
  | x :: rest =>
    if seen.contains x then distinctKeepAux seen rest
    else x :: distinctKeepAux (x :: seen) rest

def distinctKeep (xs : List String) : List String := distinctKeepAux [] xs

/-- Models `generateSummary` (defi-detector.ts lines 248-261). -/
def generateSummary (interactions : List DefiInteraction) : String :=
  if interactions.length == 0 then "No DeFi interactions detected"
  else
    let protocols := distinctKeep (interactions.map fun i => i.protocol)
    let types := distinctKeep (interactions.map fun i => interactionTypeTag i.type)
    if protocols.length == 1 then
      protocols.headD "" ++ " " ++ String.intercalate ", " types ++ " detected"
    else
      "Multi-protocol DeFi interaction: " ++ String.intercalate ", " protocols

/-- Models `calculateOverallConfidence` (defi-detector.ts lines 266-271).
Confidences are rationals standing for the source's floating-point numbers;
every value the claims exercise (0.9, 0.95, the mean of one element) is
exact in both representations, so the verdicts agree. -/
def calculateOverallConfidence (interactions : List DefiInteraction) : ℚ :=
  if interactions.length == 0 then 0
  else (interactions.foldl (fun sum i => sum + i.confidence) 0) /
    (interactions.length : ℚ)

structure DefiAnalysis where
  detected : Bool
  protocol : Option String := none
  version : Option String := none
  interactions : List DefiInteraction
  summary : String
  confidence : ℚ

/-- Models `DefiDetector.analyzeTrace` (defi-detector.ts lines 23-56): the
whole detection pass runs inside `try`; an empty interaction list yields the
no-detection result; a thrown error is caught and converted into the
diagnostic no-detection result.  Being a total Lean function is the
embedding of "never throws outward". -/
def analyzeTrace (ts : Option (String → Option TokenInfo)) (trace : ParsedTrace) :
    DefiAnalysis :=
  match detectInteractions ts trace with
  | .error _ =>
    { detected := false, interactions := [],
      summary := "DeFi analysis unavailable due to error", confidence := 0 }
  | .ok interactions =>
    match interactions with
    | [] =>
      { detected := false, interactions := [],
        summary := "No DeFi protocol interactions detected", confidence := 0 }
    | first :: rest =>
      { detected := true, protocol := some first.protocol,
        interactions := first :: rest,
        summary := generateSummary (first :: rest),
        confidence := calculateOverallConfidence (first :: rest) }

/-- Claim C4: `analyzeTrace` is a total function of the parsed trace (the
embedding of "never throws outward"); whenever the internal detection pass
throws — e.g. the TypeError raised on a call with no `to` address — the
result is the diagnostic no-detection value: `detected = false`, empty
interactions, confidence 0, and the diagnostic summary string. -/
theorem analyzeTrace_graceful (ts : Option (String → Option TokenInfo))
    (trace : ParsedTrace) (e : JsError)
    (h : detectInteractions ts trace = .error e) :
    analyzeTrace ts trace =
      { detected := false, interactions := [],
        summary := "DeFi analysis unavailable due to error", confidence := 0 } := by
  unfold analyzeTrace
  rw [h]

/-- A trace whose root is a contract-creation call with no `to` address:
internal detection throws a TypeError on it. -/
def createCallTrace : ParsedTrace :=
  { transaction := witnessTx,
    rootCall := .mk .create (some "0xaa") none "0x0" "0" "0" true none none 0
      none [] [],
    totalGasUsed := "0", events := [] }

/-- Claim C4 witness: at the creation-call trace the internal pass indeed
throws, and `analyzeTrace` returns the diagnostic no-detection result. -/
theorem analyzeTrace_graceful_witness :
    detectInteractions none createCallTrace = .error .typeError ∧
    analyzeTrace none createCallTrace =
      { detected := false, interactions := [],
        summary := "DeFi analysis unavailable due to error", confidence := 0 } :=
  ⟨rfl, analyzeTrace_graceful none createCallTrace .typeError rfl⟩

/-! ### Claim C5 — scenario B: a swap on the Uniswap V2 router -/

def daiAddr : String := "0x6b175474e89094c44da98b954eedeac495271d0f"

def usdcAddr : String := "0xa0b86991c6218b36c1d19d4a2e9eb0ce3606eb48"

def uniswapRouterAddr : String := "0x7a250d5630b4cf539739df2c5dacb4c659f2488d"

/-- The decoded `swapExactTokensForTokens` call with a 2-address path. -/
def swapDecoded : DecodedFunction :=
  { name := "swapExactTokensForTokens",
    signature := "swapExactTokensForTokens(uint256,uint256,address[],address,uint256)",
    inputs :=
      [{ name := "amountIn", type := "uint256", value := .str "1000000000000000000" },
       { name := "amountOutMin", type := "uint256", value := .str "990000" },
       { name := "path", type := "address[]", value := .arr [.str daiAddr, .str usdcAddr] },
       { name := "to", type := "address",
         value := .str "0x1111111111111111111111111111111111111111" },
       { name := "deadline", type := "uint256", value := .str "9999999999" }] }

/-- Scenario B: one successful root call to the Uniswap V2 router, decoded
as `swapExactTokensForTokens`, no subcalls. -/
def scenarioBTrace : ParsedTrace :=
  { transaction := witnessTx,
    rootCall := .mk .call (some "0x1111111111111111111111111111111111111111")
      (some uniswapRouterAddr) "0x0" "0x30000" "0x25000" true none none 0
      (some swapDecoded) [] [],
    totalGasUsed := "0x25000", events := [] }

/-- Claim C5: on scenario B, `analyzeTrace` detects exactly one interaction:
type `swap`, protocol `uniswap-v2`, confidence 0.9 (= 9/10), and the
analysis reports `detected = true` with overall confidence 0.9.  The last
two conjuncts show that the function-name table also matches this call
(with the HIGHER stored confidence 0.95), so the address-based 0.9 match
winning demonstrates the priority order. -/
theorem analyzeTrace_uniswap_scenario :
    (analyzeTrace none scenarioBTrace).detected = true ∧
    ((analyzeTrace none scenarioBTrace).interactions.map fun i =>
      (interactionTypeTag i.type, i.protocol, i.confidence)) =
      [("swap", "uniswap-v2", 9/10)] ∧
    (analyzeTrace none scenarioBTrace).protocol = some "uniswap-v2" ∧
    (analyzeTrace none scenarioBTrace).confidence = 9/10 ∧
    ((lookupAssoc functionSignatures "swapExactTokensForTokens").map
      fun f => f.confidence) = some (95/100) ∧
    (lookupAssoc contractSignatures (strLower uniswapRouterAddr)).isSome = true := by
  refine ⟨rfl, rfl, rfl, ?_, rfl, rfl⟩
  have h : (analyzeTrace none scenarioBTrace).confidence =
      (0 + 9/10 : ℚ) / ((1 : Nat) : ℚ) := rfl
  rw [h]
  norm_num

end Aura
